import Mathlib

/-
Shallow embedding of the caching/repository core of the `brewery` package
browser (src/brewery/core/{cache,errors,shell,repo,models}.py,
src/brewery/analysis/status.py, src/brewery/providers/brew_cask.py), together
with theorems settling the frozen claims about it.

Conventions used throughout the embedding:
* Python strings are Lean `String`s; operations that Python performs through
  the str API (`.lower()`, `.strip()`, slicing, `<` comparison) are modelled
  as structurally recursive functions on the underlying character list, so
  that every definition evaluates inside the kernel.  `Char.toLower` models
  Python's `str.lower` on the ASCII names that occur in package records.
* Machine integers and Unix timestamps are `Int`; retry delays, which Python
  computes in floating point from exact small inputs, are `ℚ`.
* Fallible Python code is modelled with explicit result types: an exception
  that may escape a function is a constructor of that function's result type.
* JSON values appearing in raw `brew` records are modelled by the inductive
  `JVal`; a Python `dict` is an association list looked up by first match
  (which agrees with Python dict semantics when insertion overwrites in
  place, see `dictInsert`).
-/

namespace Brewery

/-- Ordering of two code-point lists, mirroring Python's string comparison
(`a < b` on `str` compares code points lexicographically). -/
def pyCmp : List Nat → List Nat → Ordering
  | [], [] => .eq
  | [], _ :: _ => .lt
  | _ :: _, [] => .gt
  | a :: as, b :: bs =>
    if a < b then .lt
    else if b < a then .gt
    else pyCmp as bs

/-- The code points of a string. -/
def codes (s : String) : List Nat := s.data.map Char.toNat

/-- Python `str.lower`, modelled character-wise (ASCII case folding). -/
def pyLower (s : String) : String := ⟨s.data.map Char.toLower⟩

/-- The whitespace set stripped by Python's `str.strip()`. -/
def pyIsSpace (c : Char) : Bool :=
  c == ' ' || c == '\t' || c == '\n' || c == '\x0d' || c == '\x0b' || c == '\x0c'

/-- Python `str.strip()`: drop whitespace from both ends. -/
def pyStrip (s : String) : String :=
  ⟨((s.data.dropWhile pyIsSpace).reverse.dropWhile pyIsSpace).reverse⟩

/-- Python `s[:n]` on a string. -/
def pyTake (n : Nat) (s : String) : String := ⟨s.data.take n⟩

/-- JSON-like values occurring in raw package records parsed from `brew`
output. -/
inductive JVal where
  | vnull
  | vbool (b : Bool)
  | vnum (n : Int)
  | vstr (s : String)
  | vlist (l : List JVal)
  | vdict (d : List (String × JVal))

/-- Python truthiness of a JSON value (`if x:`). -/
def truthy : JVal → Bool
  | .vnull => false
  | .vbool b => b
  | .vnum n => n != 0
  | .vstr s => s != ""
  | .vlist l => !l.isEmpty
  | .vdict d => !d.isEmpty

/-- Python `dict.get(k)` on an association list: first match, `None` (here
`vnull`) when the key is absent. -/
def dictGet (d : List (String × JVal)) (k : String) : JVal :=
  match d.find? (fun p => p.1 == k) with
  | some p => p.2
  | none => .vnull

/-- Python `d[k] = v` on an association list: overwrite in place, append when
fresh.  With first-match lookup this reproduces Python dict semantics. -/
def dictInsert {A : Type} : List (String × A) → String → A → List (String × A)
  | [], k, v => [(k, v)]
  | (k', v') :: rest, k, v =>
    if k' == k then (k, v) :: rest else (k', v') :: dictInsert rest k v

/-- First-match lookup in an association list, Python `d[k]` / `k in d`. -/
def dictFind? {A : Type} (d : List (String × A)) (k : String) : Option A :=
  match d.find? (fun p => p.1 == k) with
  | some p => some p.2
  | none => none

/- models.py -/

/-- `PackageKind` enum from models.py. -/
inductive PackageKind where
  | formula
  | cask
deriving DecidableEq

/-- The `.value` string of a `PackageKind` member. -/
def PackageKind.value : PackageKind → String
  | .formula => "formula"
  | .cask => "cask"

/-- Bit values of the `PackageStatus` flag enum from models.py
(`auto()` assigns 1, 2, 4, 8, 16, 32 in declaration order). -/
def PackageStatus.OUTDATED : Nat := 1

/-- `PackageStatus.PINNED` bit. -/
def PackageStatus.PINNED : Nat := 2

/-- `PackageStatus.NOT_LINKED` bit. -/
def PackageStatus.NOT_LINKED : Nat := 4

/-- `PackageStatus.KEG_ONLY` bit. -/
def PackageStatus.KEG_ONLY : Nat := 8

/-- `PackageStatus.HEAD` bit. -/
def PackageStatus.HEAD : Nat := 16

/-- `PackageStatus.HAS_SERVICE` bit. -/
def PackageStatus.HAS_SERVICE : Nat := 32

/-- `Dependency` dataclass from models.py. -/
structure Dependency where
  name : String
  optional : Bool
  build : Bool
  test : Bool
deriving DecidableEq

/-- The `Package` dataclass from models.py.  `status` is the integer value of
the `PackageStatus` flag; `installed_on` models the `datetime` by its
timestamp (ISO round-tripping is the identity on this representation);
`metadata` is the open string-keyed mapping, whose values in this codebase
are strings or `None`. -/
structure Package where
  name : String
  kind : PackageKind
  versions : List String
  desc : Option String
  status : Nat
  installed_on : Option Int
  size_kb : Option Int
  deps : List Dependency
  used_by : List String
  tap : Option String
  path : Option String
  metadata : List (String × Option String)
deriving DecidableEq

/-- The dictionary produced by `Package.to_serializable_dict`: every field is
present (the dataclass serializer emits all of them).  The serialized `kind`
string is represented by the `PackageKind` it bijectively encodes, and the
serialized ISO timestamp by its integer timestamp. -/
structure PackageDict where
  name : String
  kind : PackageKind
  versions : List String
  desc : Option String
  status : Nat
  installed_on : Option Int
  size_kb : Option Int
  deps : List Dependency
  used_by : List String
  tap : Option String
  path : Option String
  metadata : List (String × Option String)
deriving DecidableEq

/-- `Package.to_serializable_dict` from models.py: dataclass → dict with enum
values and ISO timestamps serialized. -/
def to_serializable_dict (p : Package) : PackageDict :=
  ⟨p.name, p.kind, p.versions, p.desc, p.status, p.installed_on, p.size_kb,
    p.deps, p.used_by, p.tap, p.path, p.metadata⟩

/-- `Package.package_from_dict` from models.py, on the fully-populated
dictionaries that `to_serializable_dict` produces (so none of the `.get`
defaults fire). -/
def package_from_dict (d : PackageDict) : Package :=
  ⟨d.name, d.kind, d.versions, d.desc, d.status, d.installed_on, d.size_kb,
    d.deps, d.used_by, d.tap, d.path, d.metadata⟩

/- analysis/status.py -/

/-- A raw record as consumed by `derive_status`.  Fields absent from the
Python dict are `vnull` (both absent and `None` read back as `None` through
`dict.get`); `version` is restricted to absent-or-a-dict and `service` to a
list, the only shapes the function's `.get(...).get(...)` / iteration handle
without raising. -/
structure RawInfo where
  outdated : JVal
  version : List (String × JVal)
  pinned : JVal
  keg_only : JVal
  linked_keg : JVal
  installed : JVal
  service : List JVal

/-- Condition under which `derive_status` sets OUTDATED:
`info.get("outdated") or info.get("version", \x7b\x7d).get("outdated")`. -/
def outdatedCond (r : RawInfo) : Bool :=
  truthy r.outdated || truthy (dictGet r.version "outdated")

/-- Condition for PINNED: `info.get("pinned") is True`. -/
def pinnedCond (r : RawInfo) : Bool :=
  match r.pinned with
  | .vbool true => true
  | _ => false

/-- Condition for KEG_ONLY: `info.get("keg_only") is True`. -/
def kegOnlyCond (r : RawInfo) : Bool :=
  match r.keg_only with
  | .vbool true => true
  | _ => false

/-- Condition for NOT_LINKED:
`info.get("linked_keg") in (None, "") and info.get("installed")`. -/
def notLinkedCond (r : RawInfo) : Bool :=
  (match r.linked_keg with
    | .vnull => true
    | .vstr s => s == ""
    | _ => false) && truthy r.installed

/-- Condition for HAS_SERVICE:
`any(s.get("service") for s in info.get("service", []) if isinstance(s, dict))`. -/
def serviceCond (r : RawInfo) : Bool :=
  (r.service.filterMap fun s =>
    match s with
    | .vdict d => some d
    | _ => none).any fun d => truthy (dictGet d "service")

/-- `derive_status` from analysis/status.py: accumulate flag bits in source
order. -/
def derive_status (r : RawInfo) : Nat :=
  let s0 : Nat := 0
  let s1 := if outdatedCond r then s0 ||| PackageStatus.OUTDATED else s0
  let s2 := if pinnedCond r then s1 ||| PackageStatus.PINNED else s1
  let s3 := if kegOnlyCond r then s2 ||| PackageStatus.KEG_ONLY else s2
  let s4 := if notLinkedCond r then s3 ||| PackageStatus.NOT_LINKED else s3
  if serviceCond r then s4 ||| PackageStatus.HAS_SERVICE else s4

/- providers/brew_cask.py -/

/-- A parsed cask record as used by the cask provider: the fields the code
reads.  `token` is the cask token (the provider uses it as the package name
when present). -/
structure CaskItem where
  token : String
  version : Option String
  desc : Option String
  tap : Option String
deriving DecidableEq

/-- Construction of one `Package` from a cask record, common to
`list_installed` and `info` in providers/brew_cask.py.  No `status` argument
is passed, so the dataclass default `PackageStatus.NONE` (= 0) applies. -/
def cask_package_of (c : CaskItem) : Package :=
  { name := c.token
    kind := .cask
    versions :=
      match c.version with
      | some v => if v == "" then [] else [v]
      | none => []
    desc := some ((c.desc.getD ""))
    status := 0
    installed_on := none
    size_kb := none
    deps := []
    used_by := []
    tap := none
    path := none
    metadata := [("latest_version", c.version), ("tap", c.tap)] }

/-- `list_installed` from providers/brew_cask.py, given the cask records
parsed from the (batched) `brew info --json=v2 --cask` output, concatenated
in batch order. -/
def cask_list_installed (items : List CaskItem) : List Package :=
  items.map cask_package_of

/-- `info` from providers/brew_cask.py: `(data.get("casks", []) or [\x7b\x7d])[0]`
followed by `if not c: raise PackageNotFoundError(package=name, kind="cask")`.
An empty record and an absent list are both the not-found case. -/
def cask_info (name : String) (casks : List CaskItem) :
    Except (String × String) Package :=
  match casks with
  | [] => .error (name, "cask")
  | c :: _ => .ok (cask_package_of c)

/- errors.py : retry_on_transient -/

/-- Outcome of one invocation of an operation wrapped by the retry decorator:
return a value, raise a `TransientError` (carrying error data `E`), or raise
a non-transient exception. -/
inductive AttemptOut (V E : Type) where
  | ok (v : V)
  | transient (e : E)
  | failure (e : E)

/-- How a run of the retry wrapper ends. -/
inductive RetryResult (V E : Type) where
  | value (v : V)
  | transientRaised (e : E)
  | failureRaised (e : E)
  | raisedNone
deriving DecidableEq

/-- Observable trace of a retry-wrapped run: final outcome, number of times
the operation was invoked, and the sleep durations in order. -/
structure RetryTrace (V E : Type) where
  result : RetryResult V E
  calls : Nat
  delays : List ℚ
deriving DecidableEq

/-- The loop body of `retry_on_transient`'s wrapper (errors.py), with
`attempt` the 1-based attempt counter and `remaining` the iterations left in
`range(1, max_retries + 1)`.  `remaining = 1` is the `attempt == max_retries`
iteration, which re-raises the transient error instead of sleeping;
`remaining = 0` is the fall-through `raise last_error` with
`last_error = None` (Python raises a `TypeError`), reachable only when
`max_retries = 0`. -/
def retry_aux {V E : Type} (op : Nat → AttemptOut V E) (base backoff : ℚ) :
    Nat → Nat → RetryTrace V E
  | _, 0 => ⟨.raisedNone, 0, []⟩
  | attempt, 1 =>
    match op attempt with
    | .ok v => ⟨.value v, 1, []⟩
    | .transient e => ⟨.transientRaised e, 1, []⟩
    | .failure e => ⟨.failureRaised e, 1, []⟩
  | attempt, r + 2 =>
    match op attempt with
    | .ok v => ⟨.value v, 1, []⟩
    | .failure e => ⟨.failureRaised e, 1, []⟩
    | .transient _ =>
      let rest := retry_aux op base backoff (attempt + 1) (r + 1)
      ⟨rest.result, rest.calls + 1, (base * backoff ^ (attempt - 1)) :: rest.delays⟩

/-- `retry_on_transient(max_retries, base_delay, backoff)` applied to an
operation whose i-th invocation behaves as `op i`. -/
def retry_on_transient {V E : Type} (op : Nat → AttemptOut V E)
    (max_retries : Nat) (base_delay backoff : ℚ) : RetryTrace V E :=
  retry_aux op base_delay backoff 1 max_retries

/- errors.py : CacheError context -/

/-- The context fields a `CacheError` carries (errors.py); each keyword
argument is added to the context only when passed. -/
structure CacheErr where
  key : Option String
  namespace_ : Option String
  path : Option String
  operation : Option String
deriving DecidableEq

/-- `CACHE_DIR` from config.py (`~/.brewery/cache`). -/
def CACHE_DIR : String := "~/.brewery/cache"

/-- The file path `Cache._file(key)` = `CACHE_DIR/<namespace>/<key>.json`. -/
def cache_file_path (ns key : String) : String :=
  CACHE_DIR ++ "/" ++ ns ++ "/" ++ key ++ ".json"

/- cache.py -/

/-- State of the on-disk entry file for one cache key, as seen by a read:
no file; a file whose content `json.loads` rejects; a file the OS fails to
read (an `OSError`, distinct from corruption); or a well-formed entry
`\x7b"_ts": ts, "_token": token, "value": value\x7d` as the cache writes them. -/
inductive CacheEntryFile (V : Type) where
  | absent
  | corrupt
  | readFailure
  | parsed (ts : Int) (token : String) (value : V)
deriving DecidableEq

/-- Behaviour of the `loader()` callable passed to `get_or_set`: return a
value, raise a `TransientError`, or raise a non-transient exception. -/
inductive LoaderResult (V : Type) where
  | ok (v : V)
  | transient
  | failure
deriving DecidableEq

/-- How a `Cache.get_or_set` call ends. -/
inductive GosResult (V : Type) where
  | hit (v : V)
  | fresh (v : V)
  | stale (v : V)
  | raisedTransient
  | raisedFailure
  | raisedCacheError (e : CacheErr)
deriving DecidableEq

/-- Observable trace of one `get_or_set` call: outcome, whether the loader
was invoked, and the entry file afterwards. -/
structure GosTrace (V : Type) where
  result : GosResult V
  loaderInvoked : Bool
  entryAfter : CacheEntryFile V
deriving DecidableEq

/-- The tail of `Cache.get_or_set` from the `cache_miss` log line on: invoke
the loader; on `TransientError` return the stale candidate when allowed,
else re-raise; on success write the new entry, raising a write `CacheError`
if the write fails. -/
def gosLoad {V : Type} (key ns : String) (now : Int) (token : String)
    (entry : CacheEntryFile V) (loader : LoaderResult V) (writeOk : Bool)
    (allow_stale : Bool) (stale_data : Option V) : GosTrace V :=
  match loader with
  | .transient =>
    match allow_stale, stale_data with
    | true, some sv => ⟨.stale sv, true, entry⟩
    | _, _ => ⟨.raisedTransient, true, entry⟩
  | .failure => ⟨.raisedFailure, true, entry⟩
  | .ok v =>
    if writeOk then ⟨.fresh v, true, .parsed now token v⟩
    else
      ⟨.raisedCacheError ⟨some key, some ns, some (cache_file_path ns key), some "write"⟩,
        true, entry⟩

/-- `Cache.get_or_set` from cache.py.  `ttl` is `Optional[int]`, `now` is
`int(time.time())`, `token` the current update token, `entry` the on-disk
state for `key`, `loader`/`writeOk` the behaviour of the loader call and of
`f.write_text`.  In the invalid branch the code computes the log reason
`"expired" if (now - data.get("_ts", 0) >= ttl) else "token_mismatch"`
before looking at `allow_stale`; when `ttl` is `None` that comparison is
`int >= None`, a `TypeError`, which the surrounding `except Exception`
converts into a read `CacheError`. -/
def get_or_set {V : Type} (key ns : String) (ttl : Option Int) (now : Int)
    (token : String) (entry : CacheEntryFile V) (loader : LoaderResult V)
    (writeOk : Bool) (allow_stale : Bool) : GosTrace V :=
  match entry with
  | .readFailure =>
    ⟨.raisedCacheError ⟨some key, some ns, none, some "read"⟩, false, entry⟩
  | .absent => gosLoad key ns now token .absent loader writeOk allow_stale none
  | .corrupt => gosLoad key ns now token .corrupt loader writeOk allow_stale none
  | .parsed ts tok v =>
    let ttl_valid : Bool :=
      match ttl with
      | none => true
      | some t => decide (now - ts < t)
    if ttl_valid && (tok == token) then ⟨.hit v, false, entry⟩
    else
      match ttl with
      | none =>
        ⟨.raisedCacheError ⟨some key, some ns, none, some "read"⟩, false, entry⟩
      | some _ =>
        gosLoad key ns now token entry loader writeOk allow_stale
          (if allow_stale then some v else none)

/-- How a `Cache.get` call ends: a value, `None` (miss), or a read
`CacheError`. -/
inductive GetOut (V : Type) where
  | found (v : V)
  | missNone
  | raisedCacheError (e : CacheErr)
deriving DecidableEq

/-- `Cache.get` from cache.py: `None` when the file is missing; corruption is
logged and falls through to the final `return None`; other read errors raise
a read `CacheError`; a parsed entry is returned iff its `_token` matches the
current token (no TTL check). -/
def cache_get {V : Type} (key ns : String) (token : String)
    (entry : CacheEntryFile V) : GetOut V :=
  match entry with
  | .absent => .missNone
  | .corrupt => .missNone
  | .readFailure => .raisedCacheError ⟨some key, some ns, none, some "read"⟩
  | .parsed _ tok v => if token == tok then .found v else .missNone

/-- `Cache.set` from cache.py: write `\x7b"_ts": now, "_token": token, value\x7d`,
raising a write `CacheError` carrying key, namespace and path when the write
fails. -/
def cache_set {V : Type} (key ns : String) (now : Int) (token : String)
    (v : V) (writeOk : Bool) : Except CacheErr (CacheEntryFile V) :=
  if writeOk then .ok (.parsed now token v)
  else .error ⟨some key, some ns, some (cache_file_path ns key), some "write"⟩

/- shell.py -/

/-- What the spawned subprocess does: complete with captured streams and an
exit code, or exceed the timeout. -/
inductive ProcOutcome where
  | completed (out err : String) (code : Int)
  | timedOut
deriving DecidableEq

/-- The errors shell.py raises; all are subclasses of `TransientError`
(errors.py), with the context fields each constructor passes. -/
inductive BrewErr where
  | commandError (command : String) (returncode : Int) (error : String)
  | jsonDecodeError (command : String) (output_preview : String)
  | timeoutError (command : String) (timeout : Option Int)
deriving DecidableEq

/-- Every error shell.py raises is a `TransientError` (`BrewCommandError` and
`BrewTimeoutError` both derive from it). -/
def BrewErr.isTransient : BrewErr → Bool := fun _ => true

/-- `run_capture` from shell.py: on completion return
`(out.decode().strip(), err.decode().strip(), returncode)` whatever the
code; on timeout kill the process and raise `BrewTimeoutError`. -/
def run_capture (cmd : String) (timeout : Option Int) (po : ProcOutcome) :
    Except BrewErr (String × String × Int) :=
  match po with
  | .completed o e c => .ok (pyStrip o, pyStrip e, c)
  | .timedOut => .error (.timeoutError cmd timeout)

/-- The body of `run_json` from shell.py (the undecorated function the retry
wrapper invokes): run `run_capture`; non-zero exit raises a
`BrewCommandError` carrying command, exit code and `err or out`; then
`json.loads(out)`, whose outcome is the `parsed` argument (`none` models a
`JSONDecodeError`), with failure raising a `BrewCommandError` carrying a
200-character output preview. -/
def run_json {J : Type} (cmd : String) (timeout : Option Int)
    (po : ProcOutcome) (parsed : Option J) : Except BrewErr J :=
  match run_capture cmd timeout po with
  | .error e => .error e
  | .ok (out, err, code) =>
    if code != 0 then
      .error (.commandError cmd code (if err == "" then out else err))
    else
      match parsed with
      | some j => .ok j
      | none => .error (.jsonDecodeError cmd (pyTake 200 out))

/- repo.py -/

/-- Comparison of two (kind string, lower-cased name) sort keys, the tuple
comparison Python performs for the key
`lambda p: (p.kind.value, p.name.lower())`. -/
def pairCmp (a b : List Nat × List Nat) : Ordering :=
  match pyCmp a.1 b.1 with
  | .eq => pyCmp a.2 b.2
  | o => o

/-- The sort key of a package in `Repository._fetch_pkgs`. -/
def sortKey (p : Package) : List Nat × List Nat :=
  (codes p.kind.value, codes (pyLower p.name))

/-- Non-strict order on packages under the `_fetch_pkgs` sort key. -/
def sortRel (p q : Package) : Bool :=
  !(pairCmp (sortKey p) (sortKey q) == .gt)

/-- Insert an element into a sorted list, before the first element it is
`le`-below-or-equal; the insertion step of a stable insertion sort. -/
def insertSorted {α : Type} (le : α → α → Bool) (x : α) : List α → List α
  | [] => [x]
  | y :: ys => if le x y then x :: y :: ys else y :: insertSorted le x ys

/-- Stable insertion sort.  `pkgs.sort(key=...)` in Python is a stable sort
by the same key, and all stable sorts under one total pre-order agree, so
this computes the same list. -/
def pySort {α : Type} (le : α → α → Bool) : List α → List α
  | [] => []
  | x :: xs => insertSorted le x (pySort le xs)

/-- `Repository._fetch_pkgs(kind_filter)` from repo.py, given the package
lists the formula and cask providers return: keep the kinds the filter
admits (formulae first), then sort by `(p.kind.value, p.name.lower())`. -/
def fetch_pkgs (kf : Option PackageKind) (formulae casks : List Package) :
    List Package :=
  pySort sortRel
    ((if kf = none ∨ kf = some .formula then formulae else []) ++
      (if kf = none ∨ kf = some .cask then casks else []))

/-- The name-indexed mapping `\x7bp["name"]: p for p in pkgs_dicts\x7d` built by
`Repository._refresh_cache`. -/
def mkMapping (pkgs : List Package) : List (String × PackageDict) :=
  (pkgs.map to_serializable_dict).foldl (fun d p => dictInsert d p.name p) []

/-- The cache-key suffix for a kind filter:
`kind_filter.value if kind_filter else "all"`. -/
def kindKey (kf : Option PackageKind) : String :=
  match kf with
  | some k => k.value
  | none => "all"

/-- What `Repository._refresh_cache` returns (`return_pkgs` / `return_map` /
`None`), or the backend failure that `_fetch_pkgs` propagates (only
`CacheError` is caught inside the function). -/
inductive RefreshOut where
  | retPkgs (l : List Package)
  | retMap (m : List (String × PackageDict))
  | retNone
  | raisedFetch (e : BrewErr)
deriving DecidableEq

/-- Trace of a `_refresh_cache` call: its return-or-raise outcome and the two
cache entry files afterwards. -/
structure RefreshTrace where
  out : RefreshOut
  listEntry : CacheEntryFile (List PackageDict)
  mapEntry : CacheEntryFile (List (String × PackageDict))
deriving DecidableEq

/-- `Repository._refresh_cache` from repo.py: fetch, serialize, build the
name-indexed mapping, then `try: set(cache_key); set(map_key) except
CacheError: log` — a write failure is caught and logged (and aborts the
second write when it is the first that fails), after which the function
still returns normally. -/
def refresh_cache (kf : Option PackageKind)
    (fetchOut : Except BrewErr (List Package)) (now : Int) (token : String)
    (listEntry₀ : CacheEntryFile (List PackageDict))
    (mapEntry₀ : CacheEntryFile (List (String × PackageDict)))
    (w1 w2 : Bool) (return_pkgs return_map : Bool) : RefreshTrace :=
  match fetchOut with
  | .error e => ⟨.raisedFetch e, listEntry₀, mapEntry₀⟩
  | .ok pkgs =>
    let pkgs_dicts := pkgs.map to_serializable_dict
    let mapping := mkMapping pkgs
    let entries :=
      match cache_set ("installed_" ++ kindKey kf) "repository" now token
          pkgs_dicts w1 with
      | .ok le =>
        match cache_set ("installed_map_" ++ kindKey kf) "repository" now token
            mapping w2 with
        | .ok me => (le, me)
        | .error _ => (le, mapEntry₀)
      | .error _ => (listEntry₀, mapEntry₀)
    ⟨if return_pkgs then .retPkgs pkgs
      else if return_map then .retMap mapping
      else .retNone,
      entries.1, entries.2⟩

/-- How a `Repository.get_all_installed` call ends. -/
inductive GAIOut where
  | pkgs (l : List Package)
  | raisedFetch (e : BrewErr)
deriving DecidableEq

/-- Trace of a `get_all_installed` call: outcome, whether the backend was
queried, and the two cache entry files afterwards. -/
structure GAITrace where
  out : GAIOut
  backendInvoked : Bool
  listEntry : CacheEntryFile (List PackageDict)
  mapEntry : CacheEntryFile (List (String × PackageDict))
deriving DecidableEq

/-- The refresh path of `get_all_installed`: `_refresh_cache(kind_filter,
return_pkgs=True)`, then `if not pkgs: return []` / the final
`isinstance(pkgs, list)` check, both of which return the fetched list (or
`[]`). -/
def gaiRefresh (kf : Option PackageKind) (token : String) (now : Int)
    (listEntry₀ : CacheEntryFile (List PackageDict))
    (mapEntry₀ : CacheEntryFile (List (String × PackageDict)))
    (fetchOut : Except BrewErr (List Package)) (w1 w2 : Bool) : GAITrace :=
  let rt := refresh_cache kf fetchOut now token listEntry₀ mapEntry₀ w1 w2
    true false
  match rt.out with
  | .retPkgs ps => ⟨.pkgs ps, true, rt.listEntry, rt.mapEntry⟩
  | .raisedFetch e => ⟨.raisedFetch e, true, rt.listEntry, rt.mapEntry⟩
  | _ => ⟨.pkgs [], true, rt.listEntry, rt.mapEntry⟩

/-- `Repository.get_all_installed` from repo.py: plain `Cache.get` on the
flat list key; a present non-empty list is deserialized and returned (cache
hit, no backend query); `None`, an empty list, or a caught `CacheError` all
lead to the refresh path. -/
def get_all_installed (kf : Option PackageKind) (token : String) (now : Int)
    (listEntry₀ : CacheEntryFile (List PackageDict))
    (mapEntry₀ : CacheEntryFile (List (String × PackageDict)))
    (fetchOut : Except BrewErr (List Package)) (w1 w2 : Bool) : GAITrace :=
  match cache_get ("installed_" ++ kindKey kf) "repository" token listEntry₀ with
  | .found v =>
    if !v.isEmpty then
      ⟨.pkgs (v.map package_from_dict), false, listEntry₀, mapEntry₀⟩
    else gaiRefresh kf token now listEntry₀ mapEntry₀ fetchOut w1 w2
  | .missNone => gaiRefresh kf token now listEntry₀ mapEntry₀ fetchOut w1 w2
  | .raisedCacheError _ =>
    gaiRefresh kf token now listEntry₀ mapEntry₀ fetchOut w1 w2

/-- How a `Repository.get_details` call ends.  `raisedKeyError` is the bare
`KeyError` from `cached_data[name]` in the mapping-cache layer, which no
`except` clause around the layers catches. -/
inductive DetailsOut where
  | found (p : Package)
  | raisedKeyError (missing : String)
  | raisedPNF (package kindValue : String)
  | raisedFetch (e : BrewErr)
deriving DecidableEq

/-- Layer 4 of `get_details`: query the backend `info(name)`; any exception
is caught and re-raised as a User `PackageNotFoundError` with the package
name and kind in context; a returned package is truthy and is returned. -/
def detailsBackend (name : String) (kind : PackageKind)
    (backendOut : Except BrewErr Package) : DetailsOut :=
  match backendOut with
  | .ok p => .found p
  | .error _ => .raisedPNF name kind.value

/-- Layer 3 of `get_details`: `_refresh_cache(kind, return_map=True)`; a
`CacheError` would be caught (none can occur), a backend failure inside the
refresh propagates, and a mapping lacking the name falls through to the
backend layer. -/
def detailsRefresh (name : String) (kind : PackageKind) (now : Int)
    (token : String) (listEntry : CacheEntryFile (List PackageDict))
    (mapEntry : CacheEntryFile (List (String × PackageDict)))
    (fetchOut : Except BrewErr (List Package)) (w1 w2 : Bool)
    (backendOut : Except BrewErr Package) : DetailsOut :=
  let rt := refresh_cache (some kind) fetchOut now token listEntry mapEntry
    w1 w2 false true
  match rt.out with
  | .retMap m =>
    match dictFind? m name with
    | some d => .found (package_from_dict d)
    | none => detailsBackend name kind backendOut
  | .raisedFetch e => .raisedFetch e
  | _ => detailsBackend name kind backendOut

/-- Layer 2 of `get_details`: linear scan of the flat list cache for
`pkg.get("name") == name`; misses, the empty list and a caught `CacheError`
fall through to the refresh layer. -/
def detailsListScan (name : String) (kind : PackageKind) (now : Int)
    (token : String) (listEntry : CacheEntryFile (List PackageDict))
    (mapEntry : CacheEntryFile (List (String × PackageDict)))
    (fetchOut : Except BrewErr (List Package)) (w1 w2 : Bool)
    (backendOut : Except BrewErr Package) : DetailsOut :=
  match cache_get ("installed_" ++ kind.value) "repository" token listEntry with
  | .found l =>
    if !l.isEmpty then
      match l.find? (fun d => d.name == name) with
      | some d => .found (package_from_dict d)
      | none =>
        detailsRefresh name kind now token listEntry mapEntry fetchOut w1 w2
          backendOut
    else
      detailsRefresh name kind now token listEntry mapEntry fetchOut w1 w2
        backendOut
  | _ =>
    detailsRefresh name kind now token listEntry mapEntry fetchOut w1 w2
      backendOut

/-- `Repository.get_details(name, kind)` from repo.py.  Layer 1 reads the
name-indexed mapping cache; any present dict (empty or not — a dict never
equals `[]`) is indexed as `cached_data[name]`, so a mapping that lacks the
name raises an uncaught `KeyError`; `None` and a caught `CacheError` fall
through to the flat-list layer. -/
def get_details (name : String) (kind : PackageKind) (token : String)
    (now : Int) (mapEntry : CacheEntryFile (List (String × PackageDict)))
    (listEntry : CacheEntryFile (List PackageDict))
    (fetchOut : Except BrewErr (List Package)) (w1 w2 : Bool)
    (backendOut : Except BrewErr Package) : DetailsOut :=
  match cache_get ("installed_map_" ++ kind.value) "repository" token mapEntry with
  | .found m =>
    match dictFind? m name with
    | some d => .found (package_from_dict d)
    | none => .raisedKeyError name
  | _ =>
    detailsListScan name kind now token listEntry mapEntry fetchOut w1 w2
      backendOut

/- Concrete sample inputs used by the closed theorems and witnesses below. -/

/-- A concrete formula package. -/
def samplePackage : Package :=
  ⟨"foo", .formula, ["1.0"], none, 0, none, none, [], [], none, none, []⟩

/-- A concrete cask record. -/
def sampleCask : CaskItem :=
  ⟨"firefox", some "1.0", some "browser", some "homebrew/cask"⟩

/-- A raw record with `linked_keg = None` and `installed` empty (falsy). -/
def rawNotInstalled : RawInfo :=
  ⟨.vnull, [], .vnull, .vnull, .vnull, .vlist [], []⟩

/-- The same record with one installed entry (truthy `installed`); it differs
from `rawNotInstalled` only in the `installed` field. -/
def rawInstalled : RawInfo :=
  ⟨.vnull, [], .vnull, .vnull, .vnull, .vlist [.vnull], []⟩

/-- A raw record that is pinned and nothing else. -/
def rawPinned : RawInfo :=
  ⟨.vnull, [], .vbool true, .vnull, .vnull, .vlist [], []⟩

/- Order and sorting lemmas used by the repository theorems. -/

theorem pyCmp_self (a : List Nat) : pyCmp a a = .eq := by
  induction a with
  | nil => rfl
  | cons x xs ih => simp [pyCmp, ih]

theorem pyCmp_eq {a b : List Nat} (h : pyCmp a b = .eq) : a = b := by
  induction a generalizing b with
  | nil => cases b with
    | nil => rfl
    | cons y ys => simp [pyCmp] at h
  | cons x xs ih =>
    cases b with
    | nil => simp [pyCmp] at h
    | cons y ys =>
      by_cases h1 : x < y
      · simp [pyCmp, h1] at h
      · by_cases h2 : y < x
        · simp [pyCmp, h1, h2] at h
        · have hxy : x = y := by omega
          have htl := ih (b := ys) (by simpa [pyCmp, h1, h2] using h)
          rw [hxy, htl]

theorem pyCmp_swap (a b : List Nat) : pyCmp b a = (pyCmp a b).swap := by
  induction a generalizing b with
  | nil => cases b <;> rfl
  | cons x xs ih =>
    cases b with
    | nil => rfl
    | cons y ys =>
      by_cases h1 : x < y
      · have h2 : ¬y < x := by omega
        simp [pyCmp, h1, h2, Ordering.swap]
      · by_cases h2 : y < x
        · simp [pyCmp, h1, h2, Ordering.swap]
        · simp [pyCmp, h1, h2, ih]

theorem pyCmp_lt_trans {a b c : List Nat} (h1 : pyCmp a b = .lt)
    (h2 : pyCmp b c = .lt) : pyCmp a c = .lt := by
  induction a generalizing b c with
  | nil =>
    cases b with
    | nil => simp [pyCmp] at h1
    | cons y ys =>
      cases c with
      | nil => simp [pyCmp] at h2
      | cons z zs => simp [pyCmp]
  | cons x xs ih =>
    cases b with
    | nil => simp [pyCmp] at h1
    | cons y ys =>
      cases c with
      | nil => simp [pyCmp] at h2
      | cons z zs =>
        by_cases hxy : x < y
        · by_cases hyz : y < z
          · have hxz : x < z := by omega
            simp [pyCmp, hxz]
          · by_cases hzy : z < y
            · simp [pyCmp, hyz, hzy] at h2
            · have hxz : x < z := by omega
              simp [pyCmp, hxz]
        · by_cases hyx : y < x
          · simp [pyCmp, hxy, hyx] at h1
          · have h1' : pyCmp xs ys = .lt := by simpa [pyCmp, hxy, hyx] using h1
            by_cases hyz : y < z
            · have hxz : x < z := by omega
              simp [pyCmp, hxz]
            · by_cases hzy : z < y
              · simp [pyCmp, hyz, hzy] at h2
              · have h2' : pyCmp ys zs = .lt := by simpa [pyCmp, hyz, hzy] using h2
                have hxz : ¬x < z := by omega
                have hzx : ¬z < x := by omega
                simp [pyCmp, hxz, hzx, ih h1' h2']

theorem pairCmp_def (a b : List Nat × List Nat) :
    pairCmp a b =
      if pyCmp a.1 b.1 = .eq then pyCmp a.2 b.2 else pyCmp a.1 b.1 := by
  unfold pairCmp
  cases h : pyCmp a.1 b.1 <;> simp

theorem pairCmp_self (a : List Nat × List Nat) : pairCmp a a = .eq := by
  rw [pairCmp_def, if_pos (pyCmp_self a.1), pyCmp_self]

theorem pairCmp_eq {a b : List Nat × List Nat} (h : pairCmp a b = .eq) :
    a = b := by
  rw [pairCmp_def] at h
  by_cases hc : pyCmp a.1 b.1 = .eq
  · rw [if_pos hc] at h
    exact Prod.ext (pyCmp_eq hc) (pyCmp_eq h)
  · rw [if_neg hc] at h
    exact absurd h hc

theorem pairCmp_swap (a b : List Nat × List Nat) :
    pairCmp b a = (pairCmp a b).swap := by
  rw [pairCmp_def, pairCmp_def, pyCmp_swap a.1 b.1, pyCmp_swap a.2 b.2]
  cases pyCmp a.1 b.1 <;> simp [Ordering.swap]

theorem pairCmp_lt_trans {a b c : List Nat × List Nat}
    (h1 : pairCmp a b = .lt) (h2 : pairCmp b c = .lt) : pairCmp a c = .lt := by
  rw [pairCmp_def] at h1 h2 ⊢
  by_cases hab : pyCmp a.1 b.1 = .eq
  · rw [if_pos hab] at h1
    rw [pyCmp_eq hab]
    by_cases hbc : pyCmp b.1 c.1 = .eq
    · rw [if_pos hbc] at h2
      rw [pyCmp_eq hbc, if_pos (pyCmp_self c.1)]
      have h1' : pyCmp a.2 b.2 = .lt := h1
      exact pyCmp_lt_trans h1' h2
    · rw [if_neg hbc] at h2
      rw [if_neg (by rw [h2]; exact fun hh => Ordering.noConfusion hh)]
      exact h2
  · rw [if_neg hab] at h1
    by_cases hbc : pyCmp b.1 c.1 = .eq
    · rw [← pyCmp_eq hbc, if_neg hab]
      exact h1
    · rw [if_neg hbc] at h2
      have hac := pyCmp_lt_trans h1 h2
      rw [if_neg (by rw [hac]; exact fun hh => Ordering.noConfusion hh)]
      exact hac

theorem pairCmp_not_gt_trans {a b c : List Nat × List Nat}
    (h1 : pairCmp a b ≠ .gt) (h2 : pairCmp b c ≠ .gt) : pairCmp a c ≠ .gt := by
  cases hab : pairCmp a b with
  | gt => exact absurd hab h1
  | eq => rw [← pairCmp_eq hab] at h2; exact h2
  | lt =>
    cases hbc : pairCmp b c with
    | gt => exact absurd hbc h2
    | eq =>
      rw [pairCmp_eq hbc] at hab
      rw [hab]
      intro hh
      exact Ordering.noConfusion hh
    | lt =>
      rw [pairCmp_lt_trans hab hbc]
      intro hh
      exact Ordering.noConfusion hh

theorem sortRel_total (p q : Package) :
    sortRel p q = true ∨ sortRel q p = true := by
  unfold sortRel
  by_cases h : pairCmp (sortKey p) (sortKey q) = .gt
  · right
    rw [pairCmp_swap, h]
    rfl
  · left
    cases hc : pairCmp (sortKey p) (sortKey q) with
    | lt => rfl
    | eq => rfl
    | gt => exact absurd hc h

theorem sortRel_trans {p q r : Package} (h1 : sortRel p q = true)
    (h2 : sortRel q r = true) : sortRel p r = true := by
  unfold sortRel at *
  have h1' : pairCmp (sortKey p) (sortKey q) ≠ .gt := by
    intro hh
    rw [hh] at h1
    exact absurd h1 (by decide)
  have h2' : pairCmp (sortKey q) (sortKey r) ≠ .gt := by
    intro hh
    rw [hh] at h2
    exact absurd h2 (by decide)
  have h3 := pairCmp_not_gt_trans h1' h2'
  cases hc : pairCmp (sortKey p) (sortKey r) with
  | lt => rfl
  | eq => rfl
  | gt => exact absurd hc h3

theorem mem_insertSorted {α : Type} (le : α → α → Bool) (x y : α)
    (l : List α) (h : y ∈ insertSorted le x l) : y = x ∨ y ∈ l := by
  induction l with
  | nil => simpa [insertSorted] using h
  | cons z zs ih =>
    unfold insertSorted at h
    by_cases hc : le x z = true
    · rw [if_pos hc] at h
      rcases List.mem_cons.mp h with rfl | h'
      · exact Or.inl rfl
      · exact Or.inr h'
    · rw [if_neg hc] at h
      rcases List.mem_cons.mp h with rfl | h'
      · exact Or.inr (List.mem_cons_self _ _)
      · rcases ih h' with rfl | h''
        · exact Or.inl rfl
        · exact Or.inr (List.mem_cons_of_mem _ h'')

theorem sorted_insertSorted {α : Type} (le : α → α → Bool)
    (htrans : ∀ a b c, le a b = true → le b c = true → le a c = true)
    (htot : ∀ a b, le a b = true ∨ le b a = true) (x : α) (l : List α)
    (hs : List.Sorted (fun a b => le a b = true) l) :
    List.Sorted (fun a b => le a b = true) (insertSorted le x l) := by
  induction l with
  | nil => simp [insertSorted]
  | cons y ys ih =>
    rw [List.sorted_cons] at hs
    obtain ⟨hy, hys⟩ := hs
    unfold insertSorted
    by_cases hc : le x y = true
    · rw [if_pos hc]
      rw [List.sorted_cons]
      refine ⟨?_, ?_⟩
      · intro b hb
        rcases List.mem_cons.mp hb with rfl | hb'
        · exact hc
        · exact htrans x y b hc (hy b hb')
      · rw [List.sorted_cons]
        exact ⟨hy, hys⟩
    · rw [if_neg hc]
      rw [List.sorted_cons]
      refine ⟨?_, ih hys⟩
      intro b hb
      rcases mem_insertSorted le x b ys hb with rfl | hb'
      · rcases htot b y with h | h
        · exact absurd h hc
        · exact h
      · exact hy b hb'

theorem sorted_pySort {α : Type} (le : α → α → Bool)
    (htrans : ∀ a b c, le a b = true → le b c = true → le a c = true)
    (htot : ∀ a b, le a b = true ∨ le b a = true) (l : List α) :
    List.Sorted (fun a b => le a b = true) (pySort le l) := by
  induction l with
  | nil => simp [pySort]
  | cons x xs ih => exact sorted_insertSorted le htrans htot x _ ih

theorem fetch_pkgs_sorted (kf : Option PackageKind)
    (formulae casks : List Package) :
    List.Sorted (fun p q => sortRel p q = true) (fetch_pkgs kf formulae casks) :=
  sorted_pySort sortRel (fun _ _ _ => sortRel_trans) sortRel_total _

theorem retry_aux_all_transient {V E : Type} (op : Nat → AttemptOut V E)
    (b k : ℚ) :
    ∀ rem a : Nat, 1 ≤ rem → 1 ≤ a →
      (∀ i, a ≤ i → i < a + rem → ∃ e, op i = .transient e) →
      ∃ e, op (a + rem - 1) = .transient e ∧
        retry_aux op b k a rem =
          ⟨.transientRaised e, rem,
            (List.range (rem - 1)).map fun i => b * k ^ (a - 1 + i)⟩ := by
  intro rem
  induction rem with
  | zero => intro a h _ _; exact absurd h (by decide)
  | succ n ihn =>
    intro a _ ha hall
    cases n with
    | zero =>
      obtain ⟨e, he⟩ := hall a le_rfl (by omega)
      exact ⟨e, he, by simp [retry_aux, he]⟩
    | succ m =>
      obtain ⟨e0, he0⟩ := hall a le_rfl (by omega)
      have hall' : ∀ i, a + 1 ≤ i → i < a + 1 + (m + 1) →
          ∃ e, op i = .transient e := by
        intro i h1 h2
        exact hall i (by omega) (by omega)
      obtain ⟨e, he, hrec⟩ := ihn (a + 1) (by omega) (by omega) hall'
      refine ⟨e, ?_, ?_⟩
      · have heq : a + (m + 1 + 1) - 1 = a + 1 + (m + 1) - 1 := by omega
        rw [heq]
        exact he
      · show retry_aux op b k a (m + 2) = _
        simp only [retry_aux, he0, hrec]
        refine congrArg (RetryTrace.mk _ _) ?_
        simp only [Nat.add_sub_cancel]
        rw [List.range_succ_eq_map, List.map_cons, List.map_map]
        refine congrArg₂ List.cons (by rw [Nat.add_zero]) ?_
        refine (List.map_congr_left ?_).symm
        intro i _
        have heq : a - 1 + Nat.succ i = a + i := by omega
        simp only [Function.comp_apply, heq]

theorem retry_aux_failure {V E : Type} (op : Nat → AttemptOut V E)
    (b k : ℚ) :
    ∀ rem a j : Nat, ∀ e : E, 1 ≤ a → a ≤ j → j < a + rem →
      (∀ i, a ≤ i → i < j → ∃ e', op i = .transient e') →
      op j = .failure e →
      (retry_aux op b k a rem).result = .failureRaised e ∧
        (retry_aux op b k a rem).calls = j - a + 1 := by
  intro rem
  induction rem with
  | zero => intro a j e _ h1 h2 _ _; omega
  | succ n ihn =>
    intro a j e ha haj hj hall hfail
    cases n with
    | zero =>
      have hje : j = a := by omega
      subst hje
      simp [retry_aux, hfail]
    | succ m =>
      by_cases hja : j = a
      · subst hja
        simp [retry_aux, hfail]
      · obtain ⟨e0, he0⟩ := hall a le_rfl (by omega)
        have hall' : ∀ i, a + 1 ≤ i → i < j → ∃ e', op i = .transient e' := by
          intro i h1 h2
          exact hall i (by omega) h2
        have hrec := ihn (a + 1) j e (by omega) (by omega) (by omega) hall' hfail
        refine ⟨?_, ?_⟩
        · show (retry_aux op b k a (m + 2)).result = _
          simp only [retry_aux]
          rw [he0]
          exact hrec.1
        · show (retry_aux op b k a (m + 2)).calls = _
          simp only [retry_aux]
          rw [he0]
          show (retry_aux op b k (a + 1) (m + 1)).calls + 1 = j - a + 1
          rw [hrec.2]
          omega

theorem package_from_dict_roundtrip (p : Package) :
    package_from_dict (to_serializable_dict p) = p := rfl

theorem map_roundtrip (ps : List Package) :
    (ps.map to_serializable_dict).map package_from_dict = ps := by
  induction ps with
  | nil => rfl
  | cons p ps ih => simp [ih, package_from_dict_roundtrip]

/-- C1: the claim's valid/invalid dichotomy holds in three of its four cases
— a valid entry (token match, `ttl=None`) is a hit without invoking the
loader; a TTL-expired entry and a token-mismatched entry under a finite TTL
invoke the loader — but in the fourth case (`ttl=None` with only the token
differing) the code does not invoke the loader: computing the invalidity
reason evaluates `now - entry._ts >= None`, a `TypeError`, which the blanket
`except Exception` turns into a read `CacheError` that propagates
(`loaderInvoked = false` in the last conjunct). -/
theorem c1_validity_dichotomy :
    get_or_set "k" "repository" none 100 "tok" (.parsed 40 "tok" (7 : Nat))
        (.ok 9) true false
      = ⟨.hit 7, false, .parsed 40 "tok" 7⟩
    ∧ get_or_set "k" "repository" (some 50) 100 "tok" (.parsed 40 "tok" (7 : Nat))
        (.ok 9) true false
      = ⟨.fresh 9, true, .parsed 100 "tok" 9⟩
    ∧ get_or_set "k" "repository" (some 50) 100 "t2" (.parsed 90 "t1" (7 : Nat))
        (.ok 9) true false
      = ⟨.fresh 9, true, .parsed 100 "t2" 9⟩
    ∧ get_or_set "k" "repository" none 100 "t2" (.parsed 40 "t1" (7 : Nat))
        (.ok 9) true false
      = ⟨.raisedCacheError ⟨some "k", some "repository", none, some "read"⟩,
          false, .parsed 40 "t1" 7⟩ := by
  refine ⟨?_, ?_, ?_, ?_⟩ <;> decide

/-- C2 (counterexample): with `allow_stale=true`, an invalid
(token-mismatched) entry, `ttl=None`, and a loader that would raise a
Transient failure, `get_or_set` does not return the stale value: it raises a
read `CacheError` before the loader is ever invoked, refuting the claim as
stated. -/
theorem c2_counterexample :
    get_or_set "k" "repository" none 100 "t2" (.parsed 40 "t1" (7 : Nat))
        .transient true true
      = ⟨.raisedCacheError ⟨some "k", some "repository", none, some "read"⟩,
          false, .parsed 40 "t1" 7⟩ := by
  decide

/-- C2 (amended): when `ttl` is not `None`, `get_or_set` with
`allow_stale=true`, an existing invalid (TTL-expired or token-mismatched)
entry, and a Transient-failing loader returns the previously stored stale
value and leaves the on-disk entry unchanged; with `allow_stale=false` under
the same conditions the Transient failure propagates (the entry again
unchanged). -/
theorem c2_stale_fallback {V : Type} (key ns : String) (t now ts : Int)
    (token tok : String) (v : V) (wOk : Bool)
    (hinvalid : ¬(now - ts < t ∧ tok = token)) :
    get_or_set key ns (some t) now token (.parsed ts tok v) .transient wOk true
      = ⟨.stale v, true, .parsed ts tok v⟩
    ∧ get_or_set key ns (some t) now token (.parsed ts tok v) .transient wOk false
      = ⟨.raisedTransient, true, .parsed ts tok v⟩ := by
  have hfalse : (decide (now - ts < t) && (tok == token)) = false := by
    rcases Decidable.em (now - ts < t) with h1 | h1
    · have h2 : tok ≠ token := fun hh => hinvalid ⟨h1, hh⟩
      simp [h1, h2]
    · simp [h1]
  refine ⟨?_, ?_⟩ <;> simp [get_or_set, gosLoad, hfalse]

/-- C2 (witness): a concrete TTL-expired entry exercising the amended
theorem. -/
theorem c2_stale_fallback_witness :
    ¬((100 : Int) - 40 < 50 ∧ "t1" = "t2")
    ∧ (get_or_set "k" "repository" (some 50) 100 "t2"
          (.parsed 40 "t1" (7 : Nat)) .transient true true
        = ⟨.stale 7, true, .parsed 40 "t1" 7⟩
      ∧ get_or_set "k" "repository" (some 50) 100 "t2"
          (.parsed 40 "t1" (7 : Nat)) .transient true false
        = ⟨.raisedTransient, true, .parsed 40 "t1" 7⟩) :=
  ⟨by decide,
    c2_stale_fallback "k" "repository" 50 100 40 "t2" "t1" 7 true (by decide)⟩

/-- C3: with the name-indexed mapping cache present for the kind but lacking
the requested name, `get_details` does not fall through to the remaining
layers and does not raise a User `PackageNotFoundError`: the subscript
`cached_data[name]` raises a bare `KeyError`, which no layer catches. -/
theorem c3_keyerror_escapes :
    get_details "bar" .formula "tok" 100
        (.parsed 0 "tok" [("foo", to_serializable_dict samplePackage)])
        .absent (.ok []) true true
        (.error (.commandError "brew info --json=v2 bar" 1 ""))
      = .raisedKeyError "bar" := by
  decide

/-- C4: if every attempt raises a Transient failure, the operation is
invoked exactly `max_retries` times, the sleep after the `attempt`-th
failure (for each attempt followed by a retry) is
`base_delay * backoff^(attempt-1)`, and the final Transient failure is
re-raised unchanged; a non-Transient failure at any attempt propagates
immediately, with no further invocation. -/
theorem c4_retry_policy {V E : Type} (op : Nat → AttemptOut V E) (n : Nat)
    (b k : ℚ) (hn : 1 ≤ n) :
    ((∀ i, 1 ≤ i → i ≤ n → ∃ e, op i = .transient e) →
      (retry_on_transient op n b k).calls = n
      ∧ (∀ e, op n = .transient e →
          (retry_on_transient op n b k).result = .transientRaised e)
      ∧ (retry_on_transient op n b k).delays
          = (List.range (n - 1)).map fun i => b * k ^ i)
    ∧ (∀ j e, 1 ≤ j → j ≤ n →
        (∀ i, 1 ≤ i → i < j → ∃ e', op i = .transient e') →
        op j = .failure e →
        (retry_on_transient op n b k).result = .failureRaised e
        ∧ (retry_on_transient op n b k).calls = j) := by
  constructor
  · intro hall
    have hall' : ∀ i, 1 ≤ i → i < 1 + n → ∃ e, op i = .transient e := by
      intro i h1 h2
      exact hall i h1 (by omega)
    obtain ⟨e0, he0, heq⟩ :=
      retry_aux_all_transient op b k n 1 hn le_rfl hall'
    have hn' : 1 + n - 1 = n := by omega
    rw [hn'] at he0
    refine ⟨?_, ?_, ?_⟩
    · rw [retry_on_transient, heq]
    · intro e he
      have hee : e0 = e := by
        have := he0.symm.trans he
        exact AttemptOut.transient.inj this
      rw [retry_on_transient, heq, hee]
    · rw [retry_on_transient, heq]
      refine List.map_congr_left ?_
      intro i _
      norm_num
  · intro j e hj1 hjn hall hfail
    have h := retry_aux_failure op b k n 1 j e le_rfl hj1 (by omega) hall hfail
    refine ⟨h.1, ?_⟩
    rw [retry_on_transient, h.2]
    omega

/-- C4 (witness): with defaults `max_retries=3, base_delay=1, backoff=2` and
an always-Transient operation, there are exactly 3 invocations, sleeps of 1s
then 2s, and the third attempt's failure is re-raised. -/
theorem c4_retry_policy_witness :
    (retry_on_transient (fun i => (AttemptOut.transient i : AttemptOut Unit Nat))
        3 1 2).calls = 3
    ∧ (retry_on_transient (fun i => (AttemptOut.transient i : AttemptOut Unit Nat))
        3 1 2).result = .transientRaised 3
    ∧ (retry_on_transient (fun i => (AttemptOut.transient i : AttemptOut Unit Nat))
        3 1 2).delays = [1, 2] := by
  have h := (c4_retry_policy
    (fun i => (AttemptOut.transient i : AttemptOut Unit Nat)) 3 1 2
    (by decide)).1 (fun i _ _ => ⟨i, rfl⟩)
  refine ⟨h.1, h.2.1 3 rfl, ?_⟩
  rw [h.2.2]
  norm_num [List.range_succ]

/-- C5: a corrupted (non-JSON-parseable) entry file is a miss, not a crash:
`Cache.get` returns the miss result (`None`) without raising, and
`Cache.get_or_set` invokes the loader and produces exactly the same outcome
as with no entry file at all. -/
theorem c5_corrupt_is_miss {V : Type} (key ns : String) (ttl : Option Int)
    (now : Int) (token : String) (loader : LoaderResult V) (w a : Bool) :
    cache_get key ns token (.corrupt : CacheEntryFile V) = .missNone
    ∧ (get_or_set key ns ttl now token .corrupt loader w a).loaderInvoked = true
    ∧ (get_or_set key ns ttl now token .corrupt loader w a).result
        = (get_or_set key ns ttl now token .absent loader w a).result := by
  refine ⟨rfl, ?_, ?_⟩ <;> rcases loader with v | _ | _ <;> cases w <;> cases a <;> rfl

/-- C6: `run_capture` returns the stripped captured streams and the exit
code on normal completion whatever the exit code; `run_json` raises a
`BrewCommandError` (a `TransientError`) carrying command, exit code and
stderr-or-stdout whenever the exit code is non-zero, raises the same error
kind with a 200-character output preview when the output is not valid JSON,
and returns the parsed value otherwise. -/
theorem c6_shell (J : Type) (cmd : String) (t : Option Int) (o e : String)
    (code : Int) (parsed : Option J) :
    run_capture cmd t (.completed o e code) = .ok (pyStrip o, pyStrip e, code)
    ∧ (code ≠ 0 → run_json cmd t (.completed o e code) parsed
        = .error (.commandError cmd code
            (if pyStrip e == "" then pyStrip o else pyStrip e)))
    ∧ (code = 0 → parsed = none → run_json cmd t (.completed o e code) parsed
        = .error (.jsonDecodeError cmd (pyTake 200 (pyStrip o))))
    ∧ (code = 0 → ∀ j, parsed = some j →
        run_json cmd t (.completed o e code) parsed = .ok j)
    ∧ (∀ berr : BrewErr, berr.isTransient = true) := by
  refine ⟨rfl, ?_, ?_, ?_, fun _ => rfl⟩
  · intro hc
    have hb : (code != 0) = true := by simpa using hc
    simp [run_json, run_capture, hb]
  · intro hc hp
    subst hc
    simp [run_json, run_capture, hp]
  · intro hc j hp
    subst hc
    simp [run_json, run_capture, hp]

/-- C6 (witness): concrete runs exercising the non-zero exit, malformed
output, and success branches. -/
theorem c6_shell_witness :
    ((1 : Int) ≠ 0
      ∧ run_json "brew info --json=v2" (some 30) (.completed "boom" " err " 1)
          (some (0 : Nat))
        = .error (.commandError "brew info --json=v2" 1 "err"))
    ∧ ((0 : Int) = 0
      ∧ run_json "brew info --json=v2" (some 30) (.completed " not json" "" 0)
          (none : Option Nat)
        = .error (.jsonDecodeError "brew info --json=v2" "not json"))
    ∧ run_json "brew info --json=v2" (some 30) (.completed "[]" "" 0)
        (some (0 : Nat)) = .ok 0 := by
  refine ⟨⟨by decide, ?_⟩, ⟨rfl, ?_⟩, ?_⟩
  · rw [(c6_shell Nat "brew info --json=v2" (some 30) "boom" " err " 1
      (some 0)).2.1 (by decide)]
    rfl
  · rw [(c6_shell Nat "brew info --json=v2" (some 30) " not json" "" 0
      (none : Option Nat)).2.2.1 rfl rfl]
    rfl
  · exact (c6_shell Nat "brew info --json=v2" (some 30) "[]" "" 0
      (some 0)).2.2.2.1 rfl 0 rfl

/-- C7 (counterexample): with a failing write, `_refresh_cache` still
returns the freshly fetched packages and surfaces nothing: no `CacheError`
reaches the Repository's caller, refuting the claim that the write failure
is surfaced. -/
theorem c7_counterexample :
    refresh_cache (some .formula) (.ok [samplePackage]) 100 "tok"
        .absent .absent false false true false
      = ⟨.retPkgs [samplePackage], .absent, .absent⟩ := by
  decide

/-- C7 (amended): `Cache.set` itself raises a System `CacheError` carrying
the key, namespace and path when persisting fails, but
`Repository._refresh_cache` catches and logs it: whatever the write
outcomes, the refresh returns its normal result and no `CacheError`
propagates to the Repository's caller. -/
theorem c7_write_error_swallowed {V : Type} (key ns : String) (now2 : Int)
    (token2 : String) (v : V) (kf : Option PackageKind) (pkgs : List Package)
    (now : Int) (token : String) (le0 : CacheEntryFile (List PackageDict))
    (me0 : CacheEntryFile (List (String × PackageDict)))
    (w1 w2 rp rm : Bool) :
    cache_set key ns now2 token2 v false
      = .error ⟨some key, some ns, some (cache_file_path ns key), some "write"⟩
    ∧ (refresh_cache kf (.ok pkgs) now token le0 me0 w1 w2 rp rm).out
        = if rp then .retPkgs pkgs
          else if rm then .retMap (mkMapping pkgs)
          else .retNone := by
  refine ⟨rfl, ?_⟩
  cases w1 <;> cases w2 <;> rfl

theorem gaiRefresh_ok (kf : Option PackageKind) (token : String) (now : Int)
    (e0 : CacheEntryFile (List PackageDict))
    (m0 : CacheEntryFile (List (String × PackageDict))) (ps : List Package) :
    gaiRefresh kf token now e0 m0 (.ok ps) true true
      = ⟨.pkgs ps, true, .parsed now token (ps.map to_serializable_dict),
          .parsed now token (mkMapping ps)⟩ := rfl

theorem gai_hit (kf : Option PackageKind) (token : String) (now : Int)
    (ts : Int) (dicts : List PackageDict)
    (m0 : CacheEntryFile (List (String × PackageDict)))
    (fetchOut : Except BrewErr (List Package)) (w1 w2 : Bool)
    (hd : dicts ≠ []) :
    get_all_installed kf token now (.parsed ts token dicts) m0 fetchOut w1 w2
      = ⟨.pkgs (dicts.map package_from_dict), false, .parsed ts token dicts,
          m0⟩ := by
  unfold get_all_installed
  have hg : cache_get ("installed_" ++ kindKey kf) "repository" token
      (.parsed ts token dicts) = .found dicts := by
    simp [cache_get]
  rw [hg]
  cases dicts with
  | nil => exact absurd rfl hd
  | cons d ds => rfl

theorem gai_twice (kf : Option PackageKind) (ps : List Package)
    (e0 : CacheEntryFile (List PackageDict))
    (m0 : CacheEntryFile (List (String × PackageDict))) (now now2 : Int)
    (token : String) (hne : ps ≠ []) :
    (get_all_installed kf token now2
        (get_all_installed kf token now e0 m0 (.ok ps) true true).listEntry
        (get_all_installed kf token now e0 m0 (.ok ps) true true).mapEntry
        (.ok ps) true true).out
      = (get_all_installed kf token now e0 m0 (.ok ps) true true).out
    ∧ (get_all_installed kf token now2
        (get_all_installed kf token now e0 m0 (.ok ps) true true).listEntry
        (get_all_installed kf token now e0 m0 (.ok ps) true true).mapEntry
        (.ok ps) true true).backendInvoked = false := by
  have hdicts : ps.map to_serializable_dict ≠ [] := by
    cases ps with
    | nil => exact absurd rfl hne
    | cons p pr => simp
  have hfresh : ∀ eA mA, get_all_installed kf token now eA mA (.ok ps) true true
        = gaiRefresh kf token now eA mA (.ok ps) true true →
      (get_all_installed kf token now2
          (get_all_installed kf token now eA mA (.ok ps) true true).listEntry
          (get_all_installed kf token now eA mA (.ok ps) true true).mapEntry
          (.ok ps) true true).out
        = (get_all_installed kf token now eA mA (.ok ps) true true).out
      ∧ (get_all_installed kf token now2
          (get_all_installed kf token now eA mA (.ok ps) true true).listEntry
          (get_all_installed kf token now eA mA (.ok ps) true true).mapEntry
          (.ok ps) true true).backendInvoked = false := by
    intro eA mA hcall
    rw [hcall, gaiRefresh_ok]
    rw [gai_hit kf token now2 now (ps.map to_serializable_dict)
      (.parsed now token (mkMapping ps)) (.ok ps) true true hdicts]
    constructor
    · show GAIOut.pkgs ((ps.map to_serializable_dict).map package_from_dict)
        = GAIOut.pkgs ps
      rw [map_roundtrip]
    · rfl
  rcases e0 with _ | _ | _ | ⟨ts, tok, v⟩
  · exact hfresh .absent m0 rfl
  · exact hfresh .corrupt m0 rfl
  · exact hfresh .readFailure m0 rfl
  · by_cases htok : (token == tok) = true
    · by_cases hv : v = []
      · subst hv
        refine hfresh (.parsed ts tok []) m0 ?_
        unfold get_all_installed
        have hg : cache_get ("installed_" ++ kindKey kf) "repository" token
            (.parsed ts tok ([] : List PackageDict))
            = .found ([] : List PackageDict) := by
          simp [cache_get, htok]
        rw [hg]
        rfl
      · have hcall2 : ∀ nw : Int, get_all_installed kf token nw (.parsed ts tok v)
            m0 (.ok ps) true true
            = ⟨.pkgs (v.map package_from_dict), false, .parsed ts tok v, m0⟩ := by
          intro nw
          unfold get_all_installed
          have hg : cache_get ("installed_" ++ kindKey kf) "repository" token
              (.parsed ts tok v) = .found v := by
            simp [cache_get, htok]
          rw [hg]
          cases v with
          | nil => exact absurd rfl hv
          | cons d ds => rfl
        rw [hcall2 now]
        constructor
        · show (get_all_installed kf token now2 (.parsed ts tok v) m0
              (.ok ps) true true).out = GAIOut.pkgs (v.map package_from_dict)
          rw [hcall2 now2]
        · show (get_all_installed kf token now2 (.parsed ts tok v) m0
              (.ok ps) true true).backendInvoked = false
          rw [hcall2 now2]
    · refine hfresh (.parsed ts tok v) m0 ?_
      unfold get_all_installed
      have hg : cache_get ("installed_" ++ kindKey kf) "repository" token
          (.parsed ts tok v) = .missNone := by
        simp [cache_get]
        intro hh
        rw [hh] at htok
        simp at htok
      rw [hg]

/-- C8 (amended): two successive `get_all_installed` calls with unchanged
backend results, cache state between them and update token return the same
outcome, and the second call is served from the cache with no backend query,
provided the refreshed package list is non-empty (the code deliberately
treats a cached empty list as a miss, so with zero packages every call
re-queries the backend); the refreshed list is sorted by
`(kind, lower-cased name)`. -/
theorem c8_idempotent_refetch (kf : Option PackageKind)
    (formulae casks : List Package) (e0 : CacheEntryFile (List PackageDict))
    (m0 : CacheEntryFile (List (String × PackageDict))) (now now2 : Int)
    (token : String) (hne : fetch_pkgs kf formulae casks ≠ []) :
    (get_all_installed kf token now2
        (get_all_installed kf token now e0 m0
          (.ok (fetch_pkgs kf formulae casks)) true true).listEntry
        (get_all_installed kf token now e0 m0
          (.ok (fetch_pkgs kf formulae casks)) true true).mapEntry
        (.ok (fetch_pkgs kf formulae casks)) true true).out
      = (get_all_installed kf token now e0 m0
          (.ok (fetch_pkgs kf formulae casks)) true true).out
    ∧ (get_all_installed kf token now2
        (get_all_installed kf token now e0 m0
          (.ok (fetch_pkgs kf formulae casks)) true true).listEntry
        (get_all_installed kf token now e0 m0
          (.ok (fetch_pkgs kf formulae casks)) true true).mapEntry
        (.ok (fetch_pkgs kf formulae casks)) true true).backendInvoked = false
    ∧ List.Sorted (fun p q => sortRel p q = true)
        (fetch_pkgs kf formulae casks) := by
  obtain ⟨h1, h2⟩ :=
    gai_twice kf (fetch_pkgs kf formulae casks) e0 m0 now now2 token hne
  exact ⟨h1, h2, fetch_pkgs_sorted kf formulae casks⟩

/-- C8 (witness): one installed formula, starting from an empty cache. -/
theorem c8_idempotent_refetch_witness :
    fetch_pkgs (some .formula) [samplePackage] [] ≠ []
    ∧ ((get_all_installed (some .formula) "tok" 1
          (get_all_installed (some .formula) "tok" 0 .absent .absent
            (.ok (fetch_pkgs (some .formula) [samplePackage] [])) true true).listEntry
          (get_all_installed (some .formula) "tok" 0 .absent .absent
            (.ok (fetch_pkgs (some .formula) [samplePackage] [])) true true).mapEntry
          (.ok (fetch_pkgs (some .formula) [samplePackage] [])) true true).out
        = (get_all_installed (some .formula) "tok" 0 .absent .absent
            (.ok (fetch_pkgs (some .formula) [samplePackage] [])) true true).out
      ∧ (get_all_installed (some .formula) "tok" 1
          (get_all_installed (some .formula) "tok" 0 .absent .absent
            (.ok (fetch_pkgs (some .formula) [samplePackage] [])) true true).listEntry
          (get_all_installed (some .formula) "tok" 0 .absent .absent
            (.ok (fetch_pkgs (some .formula) [samplePackage] [])) true true).mapEntry
          (.ok (fetch_pkgs (some .formula) [samplePackage] [])) true true).backendInvoked
        = false
      ∧ List.Sorted (fun p q => sortRel p q = true)
          (fetch_pkgs (some .formula) [samplePackage] [])) :=
  ⟨by decide,
    c8_idempotent_refetch (some .formula) [samplePackage] [] .absent .absent
      0 1 "tok" (by decide)⟩

/-- C8 (counterexample): with zero installed packages and no intervening
change (same empty backend result, same token, cache files exactly as the
first call left them), the second `get_all_installed` call queries the
backend again — a cached empty list is treated as a miss — refuting the
claim's "the second call reads from the cache without invoking any backend
loader" as universally stated. -/
theorem c8_counterexample :
    (get_all_installed none "tok" 1
        (get_all_installed none "tok" 0 .absent .absent
          (.ok (fetch_pkgs none [] [])) true true).listEntry
        (get_all_installed none "tok" 0 .absent .absent
          (.ok (fetch_pkgs none [] [])) true true).mapEntry
        (.ok (fetch_pkgs none [] [])) true true).backendInvoked = true := by
  decide

theorem derive_status_bits (r : RawInfo) :
    derive_status r &&& PackageStatus.OUTDATED
      = (if outdatedCond r then PackageStatus.OUTDATED else 0)
    ∧ derive_status r &&& PackageStatus.PINNED
      = (if pinnedCond r then PackageStatus.PINNED else 0)
    ∧ derive_status r &&& PackageStatus.KEG_ONLY
      = (if kegOnlyCond r then PackageStatus.KEG_ONLY else 0)
    ∧ derive_status r &&& PackageStatus.NOT_LINKED
      = (if notLinkedCond r then PackageStatus.NOT_LINKED else 0)
    ∧ derive_status r &&& PackageStatus.HAS_SERVICE
      = (if serviceCond r then PackageStatus.HAS_SERVICE else 0)
    ∧ derive_status r &&& PackageStatus.HEAD = 0 := by
  cases h1 : outdatedCond r <;> cases h2 : pinnedCond r <;>
    cases h3 : kegOnlyCond r <;> cases h4 : notLinkedCond r <;>
      cases h5 : serviceCond r <;>
        simp [derive_status, h1, h2, h3, h4, h5, PackageStatus.OUTDATED,
          PackageStatus.PINNED, PackageStatus.KEG_ONLY,
          PackageStatus.NOT_LINKED, PackageStatus.HAS_SERVICE,
          PackageStatus.HEAD] <;>
        decide

/-- C9 (amended): each status flag is a function of a fixed set of source
fields — PINNED of `pinned`, KEG_ONLY of `keg_only`, HAS_SERVICE of
`service`, OUTDATED of `outdated` AND the nested `version` dict, NOT_LINKED
of `linked_keg` AND `installed` — so changing any field outside a flag's
source set never changes that flag (in particular `pinned=true` never sets
OUTDATED), and HEAD is never set by derivation. -/
theorem c9_flag_sources (r₁ r₂ : RawInfo) :
    (r₁.outdated = r₂.outdated → r₁.version = r₂.version →
      derive_status r₁ &&& PackageStatus.OUTDATED
        = derive_status r₂ &&& PackageStatus.OUTDATED)
    ∧ (r₁.pinned = r₂.pinned →
      derive_status r₁ &&& PackageStatus.PINNED
        = derive_status r₂ &&& PackageStatus.PINNED)
    ∧ (r₁.keg_only = r₂.keg_only →
      derive_status r₁ &&& PackageStatus.KEG_ONLY
        = derive_status r₂ &&& PackageStatus.KEG_ONLY)
    ∧ (r₁.linked_keg = r₂.linked_keg → r₁.installed = r₂.installed →
      derive_status r₁ &&& PackageStatus.NOT_LINKED
        = derive_status r₂ &&& PackageStatus.NOT_LINKED)
    ∧ (r₁.service = r₂.service →
      derive_status r₁ &&& PackageStatus.HAS_SERVICE
        = derive_status r₂ &&& PackageStatus.HAS_SERVICE)
    ∧ derive_status r₁ &&& PackageStatus.HEAD = 0 := by
  refine ⟨?_, ?_, ?_, ?_, ?_, (derive_status_bits r₁).2.2.2.2.2⟩
  · intro h1 h2
    rw [(derive_status_bits r₁).1, (derive_status_bits r₂).1]
    have hc : outdatedCond r₁ = outdatedCond r₂ := by
      unfold outdatedCond
      rw [h1, h2]
    rw [hc]
  · intro h1
    rw [(derive_status_bits r₁).2.1, (derive_status_bits r₂).2.1]
    have hc : pinnedCond r₁ = pinnedCond r₂ := by
      unfold pinnedCond
      rw [h1]
    rw [hc]
  · intro h1
    rw [(derive_status_bits r₁).2.2.1, (derive_status_bits r₂).2.2.1]
    have hc : kegOnlyCond r₁ = kegOnlyCond r₂ := by
      unfold kegOnlyCond
      rw [h1]
    rw [hc]
  · intro h1 h2
    rw [(derive_status_bits r₁).2.2.2.1, (derive_status_bits r₂).2.2.2.1]
    have hc : notLinkedCond r₁ = notLinkedCond r₂ := by
      unfold notLinkedCond
      rw [h1, h2]
    rw [hc]
  · intro h1
    rw [(derive_status_bits r₁).2.2.2.2.1, (derive_status_bits r₂).2.2.2.2.1]
    have hc : serviceCond r₁ = serviceCond r₂ := by
      unfold serviceCond
      rw [h1]
    rw [hc]

/-- C9 (witness): a record that is pinned and one that is not agree on every
OUTDATED and NOT_LINKED source field, and the theorem yields equal OUTDATED
and NOT_LINKED bits for them. -/
theorem c9_flag_sources_witness :
    rawPinned.outdated = rawNotInstalled.outdated
    ∧ derive_status rawPinned &&& PackageStatus.OUTDATED
        = derive_status rawNotInstalled &&& PackageStatus.OUTDATED
    ∧ derive_status rawPinned &&& PackageStatus.NOT_LINKED
        = derive_status rawNotInstalled &&& PackageStatus.NOT_LINKED :=
  ⟨rfl, (c9_flag_sources rawPinned rawNotInstalled).1 rfl rfl,
    (c9_flag_sources rawPinned rawNotInstalled).2.2.2.1 rfl rfl⟩

/-- C9 (counterexample): two records that agree on `linked_keg` (NOT_LINKED's
corresponding source field) and on every other field except `installed`, yet
NOT_LINKED is set for one and not the other — changing a field other than
the flag's own source field changes the flag, refuting the claim as
stated. -/
theorem c9_counterexample :
    rawNotInstalled.linked_keg = rawInstalled.linked_keg
    ∧ rawNotInstalled.outdated = rawInstalled.outdated
    ∧ rawNotInstalled.version = rawInstalled.version
    ∧ rawNotInstalled.pinned = rawInstalled.pinned
    ∧ rawNotInstalled.keg_only = rawInstalled.keg_only
    ∧ rawNotInstalled.service = rawInstalled.service
    ∧ derive_status rawNotInstalled &&& PackageStatus.NOT_LINKED = 0
    ∧ derive_status rawInstalled &&& PackageStatus.NOT_LINKED
        = PackageStatus.NOT_LINKED := by
  refine ⟨rfl, rfl, rfl, rfl, rfl, rfl, ?_, ?_⟩ <;> decide

/-- C10: every package the cask provider constructs — in `list_installed`
and in `info` — has status `PackageStatus.NONE` (value 0): the provider
never passes a `status` argument and never calls `derive_status`, which only
the formula provider applies. -/
theorem c10_cask_status_none (items : List CaskItem) (name : String)
    (casks : List CaskItem) :
    ((cask_list_installed items).all fun p => p.status == 0) = true
    ∧ (∀ p, cask_info name casks = .ok p → p.status = 0) := by
  constructor
  · rw [List.all_eq_true]
    intro p hp
    obtain ⟨c, _, rfl⟩ := List.mem_map.mp hp
    rfl
  · intro p hp
    cases casks with
    | nil => simp [cask_info] at hp
    | cons c cs =>
      have : cask_package_of c = p := by
        simpa [cask_info] using hp
      rw [← this]
      rfl

/-- C10 (witness): a concrete cask record through `info`. -/
theorem c10_cask_status_none_witness :
    cask_info "firefox" [sampleCask] = .ok (cask_package_of sampleCask)
    ∧ (cask_package_of sampleCask).status = 0 :=
  ⟨rfl, (c10_cask_status_none [sampleCask] "firefox" [sampleCask]).2
    (cask_package_of sampleCask) rfl⟩

end Brewery
